import Mathlib

/-!
Shallow embedding of the Lua.js front end (lexer, parser, compiler) and
verification of its specified behaviour.

The lexer is embedded from src/lexer/lexer.ts (and src/lexer/constants.ts),
the parser from src/parser/parser.ts, and the compiler from
src/compiler/compiler.ts.  Source text is a list of characters indexed like a
JS string, with the lexer's NUL sentinel for out-of-range reads.  Loops are
given an explicit fuel argument so that every definition is a total Lean
function; a computation that runs out of fuel yields the distinguished
`diverge` result, which is never confused with a normal return (`ok`) or a
thrown error (`err`).
-/

namespace LuaJs

/-- Common result type for the embedded runtime: a returned value, a thrown
JS Error with its message, or fuel exhaustion (the underlying loop did not
terminate within the given fuel). -/
inductive Res (α : Type) where
  | ok : α → Res α
  | err : String → Res α
  | diverge : Res α
deriving DecidableEq, Repr

instance : Monad Res where
  pure := Res.ok
  bind := fun m f =>
    match m with
    | .ok a => f a
    | .err e => .err e
    | .diverge => .diverge

/-- Token type discriminants (TokenEnum in src/lexer/token.ts). -/
inductive TokenType where
  | OPERATOR | CONSTANT | KEYWORD | IDENTIFIER | NUMBER | STRING | VARARG | CHARACTER
deriving DecidableEq, Repr

/-- String value of a TokenEnum member, as used in error messages. -/
def TokenType.str : TokenType → String
  | .OPERATOR => "OPERATOR"
  | .CONSTANT => "CONSTANT"
  | .KEYWORD => "KEYWORD"
  | .IDENTIFIER => "IDENTIFIER"
  | .NUMBER => "NUMBER"
  | .STRING => "STRING"
  | .VARARG => "VARARG"
  | .CHARACTER => "CHARACTER"

/-- A token: a discriminant plus a textual payload (src/lexer/token.ts). -/
structure Token where
  type : TokenType
  value : String
deriving DecidableEq, Repr

/-- The NUL sentinel the lexer uses for out-of-range reads. -/
def NUL : Char := Char.ofNat 0

/-- Double quote character. -/
def dquote : Char := Char.ofNat 34

/-- Single quote character. -/
def squote : Char := Char.ofNat 39

/-- Backslash character. -/
def bslash : Char := Char.ofNat 92

/-- A single quote as a string (used when rendering JS error messages). -/
def sq : String := String.mk [squote]

/-- The opening curly brace as a string. -/
def lbrace : String := String.mk [Char.ofNat 123]

/-- JS string indexing with the NUL sentinel:
this.code[n] ?? a NUL character (Lexer.getCharacterFromPosition). -/
def charAt (code : List Char) (n : Nat) : Char := code.getD n NUL

/-- Take the JS slice code.slice(a, b) of the source. -/
def slice (code : List Char) (a b : Nat) : List Char := (code.take b).drop a

/-! Constant tables from src/lexer/constants.ts. -/

/-- Lua keywords (KEYWORDS). -/
def KEYWORDS : List String :=
  ["while", "do", "end", "for",
   "local", "repeat", "until", "return",
   "in", "if", "else", "elseif",
   "function", "then", "break"]

/-- All operators, single- and multi-character (OPERATORS). -/
def OPERATORS : List String :=
  ["^", "*", "/", "%",
   "+", "-", "<", ">",
   "#",
   "<=", ">=", "==", "~=",
   "and", "or", "not", ".."]

/-- Characters accepted as bare Character tokens (VALID_CHARACTERS). -/
def VALID_CHARACTERS : List Char :=
  ['(', ')', '[', ']', '{', '}', '.', ',', ';', ':', '=']

/-- Word operators (OPERATOR_KEYWORDS). -/
def OPERATOR_KEYWORDS : List String := ["and", "or", "not"]

/-- Constant keywords (CONSTANT_KEYWORDS). -/
def CONSTANT_KEYWORDS : List String := ["nil", "true", "false"]

/-- Names used for special characters in diagnostics (SPECIAL_CHARS_MAP). -/
def SPECIAL_CHARS_MAP : List (Char × String) :=
  [(NUL, "<EOF>"), ('\n', "<newline>"), ('\t', "<tab>"), (' ', "<space>"), ('\r', "<CR>")]

/-- Escape letter conversions (TOKENIZER_ESCAPED_CHARACTER_CONVERSIONS):
b, f, n, r, t, v, backslash, double quote, single quote. -/
def TOKENIZER_ESCAPED_CHARACTER_CONVERSIONS : List (Char × Char) :=
  [('b', Char.ofNat 8), ('f', Char.ofNat 12), ('n', '\n'), ('r', '\r'),
   ('t', '\t'), ('v', Char.ofNat 11), (bslash, bslash), (dquote, dquote), (squote, squote)]

/-! Single-character checkers (static methods of Lexer). -/

/-- Lexer.isQuoteString. -/
def isQuoteString (c : Char) : Bool := c = squote || c = dquote

/-- Lexer.isIdentifierStart: a-z, A-Z or underscore. -/
def isIdentifierStart (c : Char) : Bool :=
  (97 ≤ c.toNat && c.toNat ≤ 122) || (65 ≤ c.toNat && c.toNat ≤ 90) || c.toNat = 95

/-- Lexer.isIdentifier: a-z, A-Z, 0-9 or underscore. -/
def isIdentifier (c : Char) : Bool :=
  (97 ≤ c.toNat && c.toNat ≤ 122) || (65 ≤ c.toNat && c.toNat ≤ 90) ||
  (48 ≤ c.toNat && c.toNat ≤ 57) || c.toNat = 95

/-- Lexer.isNumber: a decimal digit. -/
def isNumber (c : Char) : Bool := 48 ≤ c.toNat && c.toNat ≤ 57

/-- Lexer.isHexNumber: a hexadecimal digit. -/
def isHexNumber (c : Char) : Bool :=
  (48 ≤ c.toNat && c.toNat ≤ 57) || (97 ≤ c.toNat && c.toNat ≤ 102) ||
  (65 ≤ c.toNat && c.toNat ≤ 70)

/-- Lexer.isScientificNotationStart. -/
def isScientificNotationStart (c : Char) : Bool := c = 'e' || c = 'E'

/-- Lexer.isWhitespace: exactly space, tab and newline. -/
def isWhitespace (c : Char) : Bool := c = ' ' || c = '\t' || c = '\n'

/-! Multi-character checkers (methods reading curChar and peeks). -/

/-- Lexer.isDelimiter: an opening long bracket. -/
def isDelimiter (code : List Char) (pos : Nat) : Bool :=
  charAt code pos = '[' && (charAt code (pos+1) = '[' || charAt code (pos+1) = '=')

/-- Lexer.isLongString (an alias of isDelimiter). -/
def isLongString (code : List Char) (pos : Nat) : Bool := isDelimiter code pos

/-- Lexer.isComment: two dashes. -/
def isComment (code : List Char) (pos : Nat) : Bool :=
  charAt code pos = '-' && charAt code (pos+1) = '-'

/-- Lexer.isHexadecimalStart: 0x or 0X. -/
def isHexadecimalStart (code : List Char) (pos : Nat) : Bool :=
  charAt code pos = '0' && (charAt code (pos+1) = 'x' || charAt code (pos+1) = 'X')

/-- Lexer.isVararg: three dots. -/
def isVararg (code : List Char) (pos : Nat) : Bool :=
  charAt code pos = '.' && charAt code (pos+1) = '.' && charAt code (pos+2) = '.'

/-- Lexer.isNumberStart: a digit, or a dot followed by a digit. -/
def isNumberStart (code : List Char) (pos : Nat) : Bool :=
  isNumber (charAt code pos) ||
  (charAt code pos = '.' && isNumber (charAt code (pos+1)))

/-! Error message rendering. -/

/-- Lookup in SPECIAL_CHARS_MAP with the raw character as fallback
(SPECIAL_CHARS_MAP[c] ?? c). -/
def specialCharName (c : Char) : String :=
  match List.lookup c SPECIAL_CHARS_MAP with
  | some s => s
  | none => String.mk [c]

/-- Message of Lexer.throwUnexpectedCharacterError. -/
def mkUnexpectedErr (c : Char) (expected : String) : String :=
  "Unexpected character " ++ sq ++ specialCharName c ++ sq ++
  ", expected " ++ sq ++ expected ++ sq

/-! Operator recognition.  The source builds a prefix trie from OPERATORS
(makeTrie in utils) and walks it: in that trie, the node for a consumed
character path p exists iff p is a prefix of some operator, and the node
carries the full word exactly when p itself is an operator. -/

/-- Does the trie node for path p exist: p is a prefix of some operator. -/
def trieNodeExists (p : List Char) : Bool :=
  OPERATORS.any (fun op => List.isPrefixOf p op.toList)

/-- The word recorded at the trie node for path p, if any. -/
def trieNodeWord (p : List Char) : Option String :=
  if OPERATORS.any (fun op => op.toList = p) then some (String.mk p) else none

/-- The walking loop of Lexer.consumeOperatorIfPossible: step through trie
nodes recording the word seen at each node (overwriting, possibly with
nothing), stop when the next node does not exist; returns the recorded word
and the number of consumed characters.  The fuel only bounds the walk length;
no operator is longer than 3 characters, so a fuel of 8 is never exhausted. -/
def trieLoopAux (code : List Char) (pos : Nat) :
    Nat → List Char → Nat → Option String → Option String × Nat
  | 0, _, k, op => (op, k)
  | fuel+1, p, k, op =>
    let c := charAt code (pos + k)
    let p2 := p ++ [c]
    if trieNodeExists p2 then
      trieLoopAux code pos fuel p2 (k+1) (trieNodeWord p2)
    else (op, k)

/-- Lexer.consumeOperatorIfPossible: on success returns the operator and the
new cursor position (the cursor advances by the number of walked characters);
on failure the cursor does not move. -/
def consumeOperatorIfPossible (code : List Char) (pos : Nat) : Option (String × Nat) :=
  match trieLoopAux code pos 8 [] 0 none with
  | (some op, k) => some (op, pos + k)
  | (none, _) => none

/-! Fueled consumer loops. -/

/-- Lexer.consumeWhitespace: advance while the next character is whitespace,
then advance once more; returns the new position. -/
def consumeWhitespace (code : List Char) : Nat → Nat → Res Nat
  | 0, _ => .diverge
  | fuel+1, pos =>
    if isWhitespace (charAt code (pos+1)) then consumeWhitespace code fuel (pos+1)
    else .ok (pos+1)

/-- Lexer.consumeDigit: advance while the next character is a digit, then
advance once more; returns the new position. -/
def consumeDigit (code : List Char) : Nat → Nat → Res Nat
  | 0, _ => .diverge
  | fuel+1, pos =>
    if isNumber (charAt code (pos+1)) then consumeDigit code fuel (pos+1)
    else .ok (pos+1)

/-- Hexadecimal digit run inside Lexer.consumeNumber: advance while the next
character is a hex digit, then advance once more. -/
def consumeHexDigit (code : List Char) : Nat → Nat → Res Nat
  | 0, _ => .diverge
  | fuel+1, pos =>
    if isHexNumber (charAt code (pos+1)) then consumeHexDigit code fuel (pos+1)
    else .ok (pos+1)

/-- Identifier run of Lexer.consumeIdentifier: advance while the next
character is an identifier character, then advance once more. -/
def consumeIdentLoop (code : List Char) : Nat → Nat → Res Nat
  | 0, _ => .diverge
  | fuel+1, pos =>
    if isIdentifier (charAt code (pos+1)) then consumeIdentLoop code fuel (pos+1)
    else .ok (pos+1)

/-- Lexer.consumeIdentifier: returns the consumed identifier and the new
position. -/
def consumeIdentifier (code : List Char) (fuel pos : Nat) : Res (String × Nat) := do
  let p ← consumeIdentLoop code fuel pos
  pure (String.mk (slice code pos p), p)

/-! The JS numeric pipeline.  Lexer.consumeNumber parses the consumed slice
with Number.parseInt(-, 16) or Number.parseFloat and the token payload is the
number's toString().  We model the parsed value exactly, as a mantissa and a
base-10 exponent (the value is mant * 10 ^ expo); the restringification is
modelled exactly for integer values (JS prints an integral double below 2^21
as its plain decimal digits, and every value the lexer claims exercise is
such an integer, on which binary floating point is exact).  A NaN parse is
modelled as none. -/

/-- Numeric value of a decimal digit list (most significant first). -/
def digitsToNat (ds : List Char) : Nat :=
  ds.foldl (fun acc c => acc * 10 + (c.toNat - 48)) 0

/-- Numeric value of a hex digit character. -/
def hexDigitVal (c : Char) : Nat :=
  if 48 ≤ c.toNat && c.toNat ≤ 57 then c.toNat - 48
  else if 97 ≤ c.toNat && c.toNat ≤ 102 then c.toNat - 87
  else c.toNat - 55

/-- Number.parseInt(s, 16): an optional 0x/0X prefix, then the maximal run
of hex digits; NaN (none) when that run is empty.  Signs and leading
whitespace never occur in the slices the lexer passes. -/
def jsParseIntHex (s : List Char) : Option (Int × Int) :=
  let body :=
    match s with
    | '0' :: c :: rest => if c = 'x' || c = 'X' then rest else s
    | _ => s
  let ds := body.takeWhile (fun c => isHexNumber c)
  if ds.isEmpty then none
  else some ((ds.foldl (fun acc c => acc * 16 + hexDigitVal c) 0 : Nat), 0)

/-- Number.parseFloat(s): digits, an optional dot with a (possibly empty)
fraction digit run, and an optional exponent which only counts when it has
at least one digit; the longest valid numeric prefix is parsed and NaN
(none) is produced when there is none.  Signs and leading whitespace never
occur in the slices the lexer passes (a leading dot can). -/
def jsParseFloat (s : List Char) : Option (Int × Int) :=
  let intDigits := s.takeWhile (fun c => isNumber c)
  let rest1 := s.drop intDigits.length
  let fracDigits :=
    match rest1 with
    | '.' :: r => r.takeWhile (fun c => isNumber c)
    | _ => []
  let rest2 :=
    match rest1 with
    | '.' :: r => r.drop fracDigits.length
    | _ => rest1
  if intDigits.isEmpty && fracDigits.isEmpty then none
  else
    let mant : Int := (digitsToNat (intDigits ++ fracDigits) : Nat)
    let expVal : Int :=
      match rest2 with
      | c :: r =>
        if isScientificNotationStart c then
          match r with
          | s2 :: r2 =>
            if s2 = '-' then
              let eds := r2.takeWhile (fun x => isNumber x)
              if eds.isEmpty then 0 else -(digitsToNat eds : Int)
            else if s2 = '+' then
              let eds := r2.takeWhile (fun x => isNumber x)
              if eds.isEmpty then 0 else (digitsToNat eds : Int)
            else
              let eds := r.takeWhile (fun x => isNumber x)
              if eds.isEmpty then 0 else (digitsToNat eds : Int)
          | [] => 0
        else 0
      | [] => 0
    some (mant, expVal - fracDigits.length)

/-- Decimal string of an integer, as JS prints it. -/
def intToDecString (i : Int) : String :=
  if i < 0 then "-" ++ Nat.repr i.natAbs else Nat.repr i.toNat

/-- Number.prototype.toString for the values the lexer produces: "NaN" for a
NaN, the plain decimal digits for an integral value mant * 10 ^ expo.
Non-integral values use JS's shortest-round-trip printing, which this model
does not reproduce; no claim in this development evaluates it on one. -/
def jsNumberToString : Option (Int × Int) → String
  | none => "NaN"
  | some (m, e) =>
    if 0 ≤ e then intToDecString (m * (10 : Int) ^ e.toNat)
    else
      let d := e.natAbs
      if m % ((10 : Int) ^ d) = 0 then intToDecString (m / (10 : Int) ^ d)
      else "<noninteger:" ++ intToDecString m ++ "e" ++ intToDecString e ++ ">"

/-- Lexer.consumeNumber: consume a hex literal (0x prefix then hex digits) or
a decimal literal (digits, optional fraction, optional signed exponent) and
return the parsed numeric value together with the new position. -/
def consumeNumber (code : List Char) (fuel pos : Nat) : Res (Option (Int × Int) × Nat) :=
  if isHexadecimalStart code pos then do
    let p ← consumeHexDigit code fuel (pos+2)
    pure (jsParseIntHex (slice code pos p), p)
  else do
    let p1 ← consumeDigit code fuel pos
    let p2 ←
      if charAt code p1 = '.' then consumeDigit code fuel (p1+1)
      else pure p1
    let p3 ←
      if isScientificNotationStart (charAt code p2) then
        let q :=
          if charAt code (p2+1) = '-' || charAt code (p2+1) = '+' then p2+2 else p2+1
        consumeDigit code fuel q
      else pure p2
    pure (jsParseFloat (slice code pos p3), p3)

/-! Quoted strings. -/

/-- Message of the invalid-escape error in Lexer.consumeSimpleString. -/
def invalidEscapeMsg (c : Char) : String :=
  "Invalid escape sequence: " ++ String.mk [bslash, c]

/-- Collect up to n decimal digits starting at pos (the numeric-escape inner
loop of consumeSimpleString); returns the digits and the new position. -/
def takeDigits (code : List Char) : Nat → Nat → List Char × Nat
  | pos, 0 => ([], pos)
  | pos, n+1 =>
    let c := charAt code pos
    if isNumber c then
      let r := takeDigits code (pos+1) n
      (c :: r.1, r.2)
    else ([], pos)

/-- The scanning loop of Lexer.consumeSimpleString.  The source guard is
while (this.curChar && this.curChar !== quote): curChar is always a
one-character JS string — the NUL sentinel included — hence always truthy,
so the guard reduces to curChar !== quote and the loop can only stop on the
quote character.  Returns the decoded contents and the position of the
closing quote. -/
def simpleStringLoop (code : List Char) (quote : Char) :
    Nat → Nat → List Char → Res (List Char × Nat)
  | 0, _, _ => .diverge
  | fuel+1, pos, acc =>
    let c := charAt code pos
    if c = quote then .ok (acc, pos)
    else if c = bslash then
      let c2 := charAt code (pos+1)
      match List.lookup c2 TOKENIZER_ESCAPED_CHARACTER_CONVERSIONS with
      | some e => simpleStringLoop code quote fuel (pos+2) (acc ++ [e])
      | none =>
        if isNumber c2 then
          let r := takeDigits code (pos+1) 3
          simpleStringLoop code quote fuel r.2
            (acc ++ [Char.ofNat (digitsToNat r.1 % 65536)])
        else .err (invalidEscapeMsg c2)
    else simpleStringLoop code quote fuel (pos+1) (acc ++ [c])

/-- Lexer.consumeSimpleString: read the quote, scan to the matching quote,
skip it; returns the decoded contents and the new position. -/
def consumeSimpleString (code : List Char) (fuel pos : Nat) : Res (List Char × Nat) := do
  let quote := charAt code pos
  let r ← simpleStringLoop code quote fuel (pos+1) []
  pure (r.1, r.2 + 1)

/-! Long-bracketed strings. -/

/-- Count the run of equals signs starting at pos; returns the count and the
position just past the run. -/
def countEquals (code : List Char) : Nat → Nat → Res (Nat × Nat)
  | 0, _ => .diverge
  | fuel+1, pos =>
    if charAt code pos = '=' then do
      let r ← countEquals code fuel (pos+1)
      pure (r.1 + 1, r.2)
    else .ok (0, pos)

/-- The closing delimiter text for a given depth. -/
def endingDelimiter (depth : Nat) : String :=
  "]" ++ String.mk (List.replicate depth '=') ++ "]"

/-- The content-scanning loop of Lexer.consumeDelimiter: on a closing
bracket, advance past it, count the following equals signs and stop when a
second closing bracket follows a run whose length equals the opening depth;
on the NUL sentinel raise the unexpected-character error; otherwise (and
after a failed closing candidate) skip one character.  Returns the position
of the final closing bracket. -/
def delimiterScan (code : List Char) (depth : Nat) : Nat → Nat → Res Nat
  | 0, _ => .diverge
  | fuel+1, pos =>
    let c := charAt code pos
    if c = ']' then do
      let r ← countEquals code fuel (pos+1)
      if charAt code r.2 = ']' && r.1 = depth then .ok r.2
      else delimiterScan code depth fuel (r.2 + 1)
    else if c = NUL then .err (mkUnexpectedErr NUL (endingDelimiter depth))
    else delimiterScan code depth fuel (pos+1)

/-- Lexer.consumeDelimiter: skip the opening bracket, count the equals run
to find the depth, then require a second opening bracket (with noExpect this
requirement failing returns none instead of an error), scan the content and
slice it out.  Returns the content (none for the noExpect soft failure) and
the new position. -/
def consumeDelimiter (code : List Char) (fuel pos : Nat) (noExpect : Bool) :
    Res (Option (List Char) × Nat) := do
  let d ← countEquals code fuel (pos+1)
  let depth := d.1
  let p1 := d.2
  if charAt code p1 = '[' then do
    let endPos ← delimiterScan code depth fuel (p1+1)
    let final := endPos + 1
    pure (some (slice code (p1+1) (final - 2 - depth)), final)
  else
    if noExpect then pure (none, p1)
    else .err (mkUnexpectedErr (charAt code p1) "[")

/-- Lexer.consumeSimpleComment: advance to the next newline or the NUL
sentinel; returns the new position. -/
def consumeSimpleComment (code : List Char) : Nat → Nat → Res Nat
  | 0, _ => .diverge
  | fuel+1, pos =>
    if charAt code pos = '\n' || charAt code pos = NUL then .ok pos
    else consumeSimpleComment code fuel (pos+1)

/-! The main consumer and entry point. -/

/-- Lexer.getNextToken: dispatch on the current character; returns the
produced token, if any, and the new position. -/
def getNextToken (code : List Char) (fuel pos : Nat) : Res (Option Token × Nat) :=
  let c := charAt code pos
  if isWhitespace c then do
    let p ← consumeWhitespace code fuel pos
    pure (none, p)
  else if isIdentifierStart c then do
    let r ← consumeIdentifier code fuel pos
    let id := r.1
    let tok :=
      if OPERATOR_KEYWORDS.contains id then Token.mk .OPERATOR id
      else if CONSTANT_KEYWORDS.contains id then Token.mk .CONSTANT id
      else if KEYWORDS.contains id then Token.mk .KEYWORD id
      else Token.mk .IDENTIFIER id
    pure (some tok, r.2)
  else if isNumberStart code pos then do
    let r ← consumeNumber code fuel pos
    pure (some (Token.mk .NUMBER (jsNumberToString r.1)), r.2)
  else if isQuoteString c then do
    let r ← consumeSimpleString code fuel pos
    pure (some (Token.mk .STRING (String.mk r.1)), r.2)
  else if isLongString code pos then do
    let r ← consumeDelimiter code fuel pos false
    match r.1 with
    | some s => pure (some (Token.mk .STRING (String.mk s)), r.2)
    | none => .err "unreachable: consumeDelimiter without noExpect returned false"
  else if isComment code pos then
    if isDelimiter code (pos+2) then do
      let r ← consumeDelimiter code fuel (pos+2) true
      match r.1 with
      | some _ => pure (none, r.2)
      | none => do
        let p ← consumeSimpleComment code fuel r.2
        pure (none, p)
    else do
      let p ← consumeSimpleComment code fuel (pos+2)
      pure (none, p)
  else if isVararg code pos then
    pure (some (Token.mk .VARARG "..."), pos+3)
  else
    match consumeOperatorIfPossible code pos with
    | some (op, p) => pure (some (Token.mk .OPERATOR op), p)
    | none =>
      if VALID_CHARACTERS.contains c then
        pure (some (Token.mk .CHARACTER (String.mk [c])), pos+1)
      else .err ("Invalid character: " ++ String.mk [c])

/-- The loop of Lexer.lex: produce tokens until the current character is the
NUL sentinel. -/
def lexLoop (code : List Char) : Nat → Nat → List Token → Res (List Token)
  | 0, _, _ => .diverge
  | fuel+1, pos, toks =>
    if charAt code pos = NUL then .ok toks
    else
      match getNextToken code fuel pos with
      | .ok (some t, p) => lexLoop code fuel p (toks ++ [t])
      | .ok (none, p) => lexLoop code fuel p toks
      | .err e => .err e
      | .diverge => .diverge

/-- Fuel budget for a whole lex run; generous enough that any terminating
run of the source lexer fits (each loop iteration of the source advances the
cursor, except inside an unterminated quoted string). -/
def lexFuelBound (code : List Char) : Nat := (code.length + 2) * (code.length + 2)

/-- Lexer.lex on a character list. -/
def lex (code : List Char) : Res (List Token) :=
  lexLoop code (lexFuelBound code) 0 []

/-- Lexer.lex on a string. -/
def lexStr (s : String) : Res (List Token) := lex s.toList

/-! AST nodes (src/parser/ast-node/ast-node.ts), restricted to the node
kinds the verified claims reach.  Variable nodes share the VARIABLE node
type and carry a variableType field (LOCAL, GLOBAL or UPVALUE). -/

/-- AST node.  The expressions field of a localAssignment is the optional
ExpressionList node; a returnStmt holds its ExpressionList node. -/
inductive Ast where
  | numberLit (value : String)
  | stringLit (value : String)
  | valueLit (value : String)
  | varargLit
  | variableNode (variableType : String) (name : String)
  | binaryOp (op : String) (left right : Ast)
  | unaryOp (op : String) (operand : Ast)
  | exprList (children : List Ast)
  | localAssignment (locals : List String) (expressions : Option Ast)
  | localFunctionDecl (name : String) (params : List String) (chunk : Ast)
  | functionDecl (varNode : Ast) (fields : List String) (params : List String)
      (chunk : Ast) (isMethod : Bool)
  | returnStmt (expressions : Ast)
  | chunk (children : List Ast)
  | program (children : List Ast)
deriving Repr

/-- NodeType string of an embedded node (the NodeType enum values). -/
def Ast.nodeType : Ast → String
  | .numberLit _ => "NUMBER_LITERAL"
  | .stringLit _ => "STRING_LITERAL"
  | .valueLit _ => "VALUE_LITERAL"
  | .varargLit => "VARARG_LITERAL"
  | .variableNode _ _ => "VARIABLE"
  | .binaryOp _ _ _ => "BINARY_OPERATOR"
  | .unaryOp _ _ => "UNARY_OPERATOR"
  | .exprList _ => "EXPRESSION_LIST"
  | .localAssignment _ _ => "LOCAL_ASSIGNMENT"
  | .localFunctionDecl _ _ _ => "LOCAL_FUNCTION_DECLARATION"
  | .functionDecl _ _ _ _ _ => "FUNCTION_DECLARATION"
  | .returnStmt _ => "RETURN_STATEMENT"
  | .chunk _ => "CHUNK"
  | .program _ => "PROGRAM"

/-! The parser (src/parser/parser.ts). -/

/-- The operator precedence table (OPERATOR_PRECEDENCE): each binary
operator maps to a left and a right binding precedence. -/
def OPERATOR_PRECEDENCE : List (String × (Nat × Nat)) :=
  [("+", (6, 6)), ("-", (6, 6)),
   ("*", (7, 7)), ("/", (7, 7)),
   ("%", (7, 7)),
   ("^", (10, 9)), ("..", (5, 4)),
   ("==", (3, 3)), ("~=", (3, 3)),
   ("<", (3, 3)), (">", (3, 3)),
   ("<=", (3, 3)), (">=", (3, 3)),
   ("and", (2, 2)), ("or", (1, 1))]

/-- The binary operators (BINARY_OPERATORS). -/
def BINARY_OPERATORS : List String :=
  ["+", "-", "*", "/",
   "%", "^", "..", "==",
   "~=", "<", ">", "<=",
   ">=", "and", "or"]

/-- The unary operators (UNARY_OPERATORS). -/
def UNARY_OPERATORS : List String := ["-", "not", "#"]

/-- UNARY_PRECEDENCE. -/
def UNARY_PRECEDENCE : Nat := 8

/-- STOP_KEYWORDS: keywords that end a block. -/
def STOP_KEYWORDS : List String := ["end", "else", "elseif", "until"]

/-- A parser scope frame (class Scope in parser.ts): a function-boundary
flag and the set of declared names. -/
structure PScope where
  isFunctionScope : Bool
  vars : List String
deriving DecidableEq, Repr

/-- Scope.registerVariable: mark the name declared. -/
def PScope.registerVariable (s : PScope) (name : String) : PScope :=
  { s with vars := s.vars ++ [name] }

/-- Scope.hasVariable. -/
def PScope.hasVariable (s : PScope) (name : String) : Bool :=
  s.vars.contains name

/-- Parser state: the token list, the cursor position (an Int, since the
source moves the cursor back one step when an expression fails to parse and
JS array indexing merely yields undefined out of range), and the scope
stack.  The innermost scope is the head of the list; the JS array pushes the
innermost scope at its end. -/
structure PState where
  tokens : List Token
  position : Int
  scopeStack : List PScope
deriving Repr

/-- JS array indexing at a possibly negative position. -/
def tokAt (tokens : List Token) (i : Int) : Option Token :=
  if i < 0 then none else tokens.get? i.toNat

/-- The current token (this.curToken). -/
def PState.curToken (st : PState) : Option Token := tokAt st.tokens st.position

/-- Parser.peek. -/
def PState.peek (st : PState) (n : Int) : Option Token :=
  tokAt st.tokens (st.position + n)

/-- Parser.advance. -/
def PState.advance (st : PState) (n : Int) : PState :=
  { st with position := st.position + n }

/-- Parser.pushScope: the new scope becomes the innermost. -/
def PState.pushScope (st : PState) (isFunctionScope : Bool) : PState :=
  { st with scopeStack := PScope.mk isFunctionScope [] :: st.scopeStack }

/-- Parser.popScope (fatal when the stack is empty). -/
def PState.popScope (st : PState) : Res PState :=
  match st.scopeStack with
  | [] => .err "No scope to pop"
  | _ :: rest => .ok { st with scopeStack := rest }

/-- Parser.registerVariable: register into the innermost scope (fatal when
there is none). -/
def PState.registerVariable (st : PState) (name : String) : Res PState :=
  match st.scopeStack with
  | [] => .err "No scope to register variable"
  | s :: rest => .ok { st with scopeStack := s.registerVariable name :: rest }

/-- Parser.registerVariables. -/
def PState.registerVariables (st : PState) (names : List String) : Res PState :=
  names.foldlM (fun acc n => acc.registerVariable n) st

/-- The walk of Parser.getVariableType over the scope stack, innermost
first, carrying the crossed-a-function-boundary flag: the first scope that
declares the name decides Local (no function boundary crossed yet) or
Upvalue; a missing scope that is a function boundary sets the flag;
exhausting the stack yields Global. -/
def getVariableTypeAux (name : String) : List PScope → Bool → String
  | [], _ => "Global"
  | s :: rest, isUp =>
    if s.hasVariable name then (if isUp then "Upvalue" else "Local")
    else getVariableTypeAux name rest (isUp || s.isFunctionScope)

/-- Parser.getVariableType. -/
def getVariableType (name : String) (stack : List PScope) : String :=
  getVariableTypeAux name stack false

/-- Parser.checkTokenType on an optional token. -/
def checkTokenType (tok : Option Token) (t : TokenType) : Bool :=
  match tok with
  | some tok => tok.type = t
  | none => false

/-- Parser.checkTokenValue on an optional token. -/
def checkTokenValue (tok : Option Token) (v : String) : Bool :=
  match tok with
  | some tok => tok.value = v
  | none => false

/-- Parser.checkToken. -/
def checkToken (tok : Option Token) (t : TokenType) (v : String) : Bool :=
  checkTokenType tok t && checkTokenValue tok v

/-- Parser.expectCurrentTokenType (fatal on mismatch). -/
def PState.expectCurrentTokenType (st : PState) (t : TokenType) : Res Unit :=
  if checkTokenType st.curToken t then .ok ()
  else .err ("Expected token type " ++ sq ++ t.str ++ sq)

/-- Parser.expectCurrentTokenValue (fatal on mismatch). -/
def PState.expectCurrentTokenValue (st : PState) (v : String) : Res Unit :=
  if checkTokenValue st.curToken v then .ok ()
  else .err ("Expected token value " ++ sq ++ v ++ sq)

/-- Parser.expectCurrentToken. -/
def PState.expectCurrentToken (st : PState) (t : TokenType) (v : String) : Res Unit := do
  st.expectCurrentTokenType t
  st.expectCurrentTokenValue v

/-- Parser.isUnaryOperator. -/
def isUnaryOperator (tok : Option Token) : Bool :=
  match tok with
  | some tok => tok.type = TokenType.OPERATOR && UNARY_OPERATORS.contains tok.value
  | none => false

/-- Parser.isBinaryOperator. -/
def isBinaryOperator (tok : Option Token) : Bool :=
  match tok with
  | some tok => tok.type = TokenType.OPERATOR && BINARY_OPERATORS.contains tok.value
  | none => false

/-- Parser.consumeOptionalSemicolon. -/
def consumeOptionalSemicolon (st : PState) : PState :=
  if checkToken (st.peek 1) .CHARACTER ";" then st.advance 1 else st

/-- Parser.parseVariable: classify the identifier under the cursor against
the scope stack and build the matching variable node; the cursor does not
move. -/
def parseVariable (st : PState) : Res (Ast × PState) := do
  st.expectCurrentTokenType .IDENTIFIER
  match st.curToken with
  | some tok =>
    let name := tok.value
    let vt := getVariableType name st.scopeStack
    let node :=
      if vt = "Local" then Ast.variableNode "LOCAL" name
      else if vt = "Global" then Ast.variableNode "GLOBAL" name
      else Ast.variableNode "UPVALUE" name
    .ok (node, st)
  | none => .err ("Expected token type " ++ sq ++ "IDENTIFIER" ++ sq)

/-- Parser.consumeIdentifierList: identifiers separated by commas; the
cursor ends on the last identifier. -/
def consumeIdentifierListLoop (acc : List String) (st : PState) :
    Nat → Res (List String × PState)
  | 0 => .diverge
  | fuel+1 =>
    if checkToken (st.peek 1) .CHARACTER "," then do
      let st := st.advance 2
      st.expectCurrentTokenType .IDENTIFIER
      match st.curToken with
      | some tok => consumeIdentifierListLoop (acc ++ [tok.value]) st fuel
      | none => .err ("Expected token type " ++ sq ++ "IDENTIFIER" ++ sq)
    else .ok (acc, st)

/-- Parser.consumeIdentifierList. -/
def consumeIdentifierList (st : PState) (fuel : Nat) : Res (List String × PState) := do
  st.expectCurrentTokenType .IDENTIFIER
  match st.curToken with
  | some tok => consumeIdentifierListLoop [tok.value] st fuel
  | none => .err ("Expected token type " ++ sq ++ "IDENTIFIER" ++ sq)

/-- The collecting loop of Parser.consumeParameterList. -/
def consumeParameterListLoop (acc : List String) (st : PState) :
    Nat → Res (List String × PState)
  | 0 => .diverge
  | fuel+1 =>
    match st.curToken with
    | none => .ok (acc, st)
    | some _ =>
      if checkToken st.curToken .VARARG "..." then
        .ok (acc ++ ["..."], st.advance 1)
      else do
        st.expectCurrentTokenType .IDENTIFIER
        match st.curToken with
        | some tok =>
          let acc := acc ++ [tok.value]
          let st := st.advance 1
          if checkToken st.curToken .CHARACTER "," then
            consumeParameterListLoop acc (st.advance 1) fuel
          else .ok (acc, st)
        | none => .err ("Expected token type " ++ sq ++ "IDENTIFIER" ++ sq)

/-- Parser.consumeParameterList: a parenthesised, comma-separated list of
identifiers with an optional trailing vararg; the cursor ends on the closing
parenthesis. -/
def consumeParameterList (st : PState) (fuel : Nat) : Res (List String × PState) := do
  st.expectCurrentToken .CHARACTER "("
  let st := st.advance 1
  if checkToken st.curToken .CHARACTER ")" then .ok ([], st)
  else do
    let r ← consumeParameterListLoop [] st fuel
    r.2.expectCurrentToken .CHARACTER ")"
    .ok r

/-! The recursive core of the parser.  The source methods are mutually
recursive; to keep every definition kernel-computable the recursion is
expressed as a step function on a structure of parsing functions, iterated
by structural recursion on a fuel counter: level fuel+1 performs one layer
of every method, delegating every (mutually) recursive call to level fuel,
and level 0 is the out-of-fuel result.  The nesting depth of a parse is
bounded by the token count, so the top-level fuel suffices for every input
the claims evaluate.  Productions the verified claims never reach (table
constructors, call and index suffixes, anonymous functions, the statement
kinds other than local, function and return) are embedded as an explicit
unmodelled error so that any run that would touch them is visibly outside
the model rather than silently wrong. -/

/-- Parser.parseSuffix: the postfix productions (call, method call, field
access, bracket index, implicit call) are unmodelled; the no-suffix case
returns none exactly as the source does. -/
def parseSuffix (e : Ast) (st : PState) : Res (Option Ast × PState) :=
  match st.peek 1 with
  | some nt =>
    if nt.type = TokenType.CHARACTER &&
        (nt.value = "(" || nt.value = ":" || nt.value = "." ||
         nt.value = "[" || nt.value = lbrace) then
      .err "unmodelled: call or index suffix"
    else if nt.type = TokenType.STRING then
      .err "unmodelled: implicit string-argument call"
    else .ok (none, st)
  | none =>
    match e with
    | _ => .ok (none, st)

/-- The suffix-chaining loop of Parser.parsePrefix. -/
def prefixLoop : Nat → Ast → PState → Res (Ast × PState)
  | 0, _, _ => .diverge
  | fuel+1, e, st => do
    let r ← parseSuffix e st
    match r.1 with
    | none => .ok (e, r.2)
    | some e2 => prefixLoop fuel e2 r.2

/-- The dotted-field loop of Parser.parseFunction. -/
def functionFieldsLoop : Nat → List String → PState → Res (List String × PState)
  | 0, _, _ => .diverge
  | fuel+1, acc, st =>
    if checkToken st.curToken .CHARACTER "." then do
      let st := st.advance 1
      st.expectCurrentTokenType .IDENTIFIER
      match st.curToken with
      | none => .err ("Expected token type " ++ sq ++ "IDENTIFIER" ++ sq)
      | some tok => functionFieldsLoop fuel (acc ++ [tok.value]) (st.advance 1)
    else .ok (acc, st)

/-- The recursive interface of the parser: one field per method of the
source Parser class that takes part in the mutual recursion. -/
structure ParserFns where
  parseBase : PState → Res (Option Ast × PState)
  parsePrefix : PState → Res (Option Ast × PState)
  parseUnary : PState → Res (Option Ast × PState)
  binLoop : Nat → Ast → PState → Res (Option Ast × PState)
  parseBinary : Nat → PState → Res (Option Ast × PState)
  parseExpression : PState → Res (Option Ast × PState)
  parseExpressionWithError : PState → Res (Ast × PState)
  exprListLoop : List Ast → PState → Res (List Ast × PState)
  parseExpressionList : Bool → PState → Res (List Ast × PState)
  parseLocal : PState → Res (Ast × PState)
  parseReturn : PState → Res (Ast × PState)
  parseFunction : PState → Res (Ast × PState)
  parseStatement : PState → Res (Option Ast × PState)
  codeBlockLoop : List Ast → PState → Res (List Ast × PState)
  parseCodeBlock : Bool → Bool → Option (List String) → PState → Res (Ast × PState)

/-- The out-of-fuel level: every method diverges. -/
def parserDiverge : ParserFns where
  parseBase := fun _ => .diverge
  parsePrefix := fun _ => .diverge
  parseUnary := fun _ => .diverge
  binLoop := fun _ _ _ => .diverge
  parseBinary := fun _ _ => .diverge
  parseExpression := fun _ => .diverge
  parseExpressionWithError := fun _ => .diverge
  exprListLoop := fun _ _ => .diverge
  parseExpressionList := fun _ _ => .diverge
  parseLocal := fun _ => .diverge
  parseReturn := fun _ => .diverge
  parseFunction := fun _ => .diverge
  parseStatement := fun _ => .diverge
  codeBlockLoop := fun _ _ => .diverge
  parseCodeBlock := fun _ _ _ _ => .diverge

/-- One layer of every parser method; p supplies the next recursive level
and fuel is the amount left for it (used by the self-contained fueled
helpers). -/
def parserStep (fuel : Nat) (p : ParserFns) : ParserFns where
  parseBase := fun st =>
    match st.curToken with
    | none => .ok (none, st)
    | some tok =>
      match tok.type with
      | .NUMBER => .ok (some (Ast.numberLit tok.value), st)
      | .STRING => .ok (some (Ast.stringLit tok.value), st)
      | .VARARG => .ok (some Ast.varargLit, st)
      | .CONSTANT => .ok (some (Ast.valueLit tok.value), st)
      | .IDENTIFIER => do
        let r ← parseVariable st
        .ok (some r.1, r.2)
      | .CHARACTER =>
        if tok.value = "(" then do
          let st := st.advance 1
          let r ← p.parseExpressionWithError st
          let st := r.2.advance 1
          st.expectCurrentToken .CHARACTER ")"
          .ok (some r.1, st)
        else if tok.value = lbrace then .err "unmodelled: table constructor"
        else .ok (none, st)
      | .KEYWORD =>
        if tok.value = "function" then .err "unmodelled: anonymous function"
        else .ok (none, st)
      | _ => .ok (none, st)
  parsePrefix := fun st => do
    let r ← p.parseBase st
    match r.1 with
    | none => .ok (none, r.2)
    | some e => do
      let r2 ← prefixLoop fuel e r.2
      .ok (some r2.1, r2.2)
  parseUnary := fun st =>
    match st.curToken with
    | none => .ok (none, st)
    | some tok =>
      if isUnaryOperator st.curToken then do
        let op := tok.value
        let st := st.advance 1
        let r ← p.parseBinary UNARY_PRECEDENCE st
        match r.1 with
        | none => .err "Expected expression"
        | some e => .ok (some (Ast.unaryOp op e), r.2)
      else p.parsePrefix st
  binLoop := fun minPrec e st =>
    match st.peek 1 with
    | some nt =>
      if isBinaryOperator (some nt) then
        match List.lookup nt.value OPERATOR_PRECEDENCE with
        | none => .err ("Unknown operator " ++ sq ++ nt.value ++ sq)
        | some prec =>
          if prec.1 < minPrec then .ok (some e, st)
          else do
            let st := st.advance 2
            let r ← p.parseBinary prec.2 st
            match r.1 with
            | none => .err "Expected expression"
            | some right => p.binLoop minPrec (Ast.binaryOp nt.value e right) r.2
      else .ok (some e, st)
    | none => .ok (some e, st)
  parseBinary := fun minPrec st => do
    let r ← p.parseUnary st
    match r.1 with
    | none => .ok (none, r.2)
    | some e => p.binLoop minPrec e r.2
  parseExpression := fun st => do
    let r ← p.parseBinary 0 st
    match r.1 with
    | none => .ok (none, r.2.advance (-1))
    | some e => .ok (some e, r.2)
  parseExpressionWithError := fun st => do
    let r ← p.parseExpression st
    match r.1 with
    | none => .err "Expected expression"
    | some e => .ok (e, r.2)
  exprListLoop := fun acc st =>
    if checkToken (st.peek 1) .CHARACTER "," then do
      let st := st.advance 2
      let r ← p.parseExpressionWithError st
      p.exprListLoop (acc ++ [r.1]) r.2
    else .ok (acc, st)
  parseExpressionList := fun atLeastOne st => do
    let r ← p.parseExpression st
    match r.1 with
    | none =>
      if atLeastOne then .err "Expected at least one expression"
      else .ok ([], r.2)
    | some e => p.exprListLoop [e] r.2
  parseLocal := fun st => do
    let st := st.advance 1
    if checkToken st.curToken .KEYWORD "function" then do
      let st := st.advance 1
      st.expectCurrentTokenType .IDENTIFIER
      match st.curToken with
      | none => .err ("Expected token type " ++ sq ++ "IDENTIFIER" ++ sq)
      | some tok => do
        let name := tok.value
        let st := st.advance 1
        let r ← consumeParameterList st fuel
        let st := r.2.advance 1
        let rc ← p.parseCodeBlock false true (some r.1) st
        rc.2.expectCurrentToken .KEYWORD "end"
        .ok (Ast.localFunctionDecl name r.1 rc.1, rc.2)
    else do
      let r ← consumeIdentifierList st fuel
      let locals := r.1
      let st := r.2
      if checkToken (st.peek 1) .CHARACTER "=" then do
        let st := st.advance 2
        let re ← p.parseExpressionList true st
        let st ← re.2.registerVariables locals
        .ok (Ast.localAssignment locals (some (Ast.exprList re.1)), st)
      else do
        let st ← st.registerVariables locals
        .ok (Ast.localAssignment locals none, st)
  parseReturn := fun st => do
    let st := st.advance 1
    let r ← p.parseExpressionList false st
    .ok (Ast.returnStmt (Ast.exprList r.1), r.2)
  parseFunction := fun st => do
    let st := st.advance 1
    let rv ← parseVariable st
    let st := rv.2.advance 1
    let rf ← functionFieldsLoop fuel [] st
    let st := rf.2
    let rm ←
      if checkToken st.curToken .CHARACTER ":" then do
        let st := st.advance 1
        st.expectCurrentTokenType .IDENTIFIER
        match st.curToken with
        | none => .err ("Expected token type " ++ sq ++ "IDENTIFIER" ++ sq)
        | some tok => .ok ((rf.1 ++ [tok.value], true), st.advance 1)
      else .ok ((rf.1, false), st)
    let fields := rm.1.1
    let isMethod := rm.1.2
    let st := rm.2
    st.expectCurrentToken .CHARACTER "("
    let rp ← consumeParameterList st fuel
    let st := rp.2.advance 1
    let rc ← p.parseCodeBlock false true (some rp.1) st
    rc.2.expectCurrentToken .KEYWORD "end"
    .ok (Ast.functionDecl rv.1 fields rp.1 rc.1 isMethod, rc.2)
  parseStatement := fun st =>
    match st.curToken with
    | none => .err "unreachable: parseStatement without a current token"
    | some tok => do
      let r ←
        if tok.type = TokenType.KEYWORD then
          if STOP_KEYWORDS.contains tok.value then .ok ((none : Option Ast), st)
          else if tok.value = "local" then do
            let r ← p.parseLocal st
            .ok (some r.1, r.2)
          else if tok.value = "return" then do
            let r ← p.parseReturn st
            .ok (some r.1, r.2)
          else if tok.value = "function" then do
            let r ← p.parseFunction st
            .ok (some r.1, r.2)
          else if tok.value = "while" || tok.value = "if" || tok.value = "do" ||
              tok.value = "for" || tok.value = "break" || tok.value = "repeat" then
            .err ("unmodelled statement: " ++ tok.value)
          else .err ("Unknown keyword " ++ sq ++ tok.value ++ sq)
        else .err "unmodelled statement: expression statement"
      match r.1 with
      | none => .ok (none, r.2)
      | some node => .ok (some node, consumeOptionalSemicolon r.2)
  codeBlockLoop := fun acc st =>
    match st.curToken with
    | none => .ok (acc, st)
    | some _ => do
      let r ← p.parseStatement st
      match r.1 with
      | none => .ok (acc, r.2)
      | some node => p.codeBlockLoop (acc ++ [node]) (r.2.advance 1)
  parseCodeBlock := fun isRoot isFunctionScope scopeVariables st => do
    let st := st.pushScope isFunctionScope
    let st ←
      match scopeVariables with
      | some vars => st.registerVariables vars
      | none => .ok st
    let r ← p.codeBlockLoop [] st
    let st ← r.2.popScope
    .ok (if isRoot then Ast.program r.1 else Ast.chunk r.1, st)

/-- The parser at a given fuel level. -/
def parserFns : Nat → ParserFns
  | 0 => parserDiverge
  | fuel+1 => parserStep fuel (parserFns fuel)

/-- Fuel budget for a whole parse; generous enough for every terminating
run the claims evaluate. -/
def parseFuel : Nat := 96

/-- Parser.parse: parse the token sequence as a root code block and require
the tokens to be exhausted. -/
def parseProgram (tokens : List Token) : Res Ast := do
  let r ← (parserFns parseFuel).parseCodeBlock true false none (PState.mk tokens 0 [])
  match r.2.curToken with
  | some _ => .err "Expected end of file"
  | none => .ok r.1

/-- The lex-then-parse pipeline on a source string. -/
def luaParse (s : String) : Res Ast := do
  let toks ← lexStr s
  parseProgram toks

/-! The compiler (src/compiler/compiler.ts). -/

/-- Lua VM opcodes (the Opcodes enum). -/
inductive Opcodes where
  | MOVE | LOADK | LOADBOOL | LOADNIL | GETUPVAL
  | GETGLOBAL | GETTABLE | SETGLOBAL | SETUPVAL | SETTABLE
  | NEWTABLE | SELF | ADD | SUB | MUL
  | DIV | MOD | POW | UNM | NOT
  | LEN | CONCAT | JMP | EQ | LT
  | LE | TEST | TESTSET | CALL | TAILCALL
  | RETURN | FORLOOP | FORPREP | TFORLOOP | SETLIST
  | CLOSE | CLOSURE | VARARG
deriving DecidableEq, Repr

/-- An IR operand: a type tag string (Register or Constant in the compiled
fragment) and a numeric value (class IROperand). -/
structure IROperand where
  type : String
  value : Int
deriving DecidableEq, Repr

/-- An IR instruction: an opcode and its operands (class IRInstruction). -/
structure IRInstruction where
  opcode : Opcodes
  operands : List IROperand
deriving DecidableEq, Repr

/-- Constant type tags (the LuaConstantType const enum). -/
inductive LuaConstantType where
  | LUA_TNIL | LUA_TBOOLEAN | LUA_TNUMBER | LUA_TSTRING
deriving DecidableEq, Repr

/-- A constant value: number, string or boolean (LuaConstantValue).  In the
compiled fragment every pooled value is a string (literal nodes store their
payload as a string and global names are strings); JS strict equality across
distinct runtime types is false, which the derived equality mirrors. -/
inductive LuaConstantValue where
  | num (value : Int × Int)
  | str (value : String)
  | boolean (value : Bool)
deriving DecidableEq, Repr

/-- A constant pool entry (class LuaConstant). -/
structure LuaConstant where
  type : LuaConstantType
  value : LuaConstantValue
deriving DecidableEq, Repr

/-- A prototype (class LuaPrototype): instruction list, constant pool and
metadata.  The prototypes field of the source is omitted: the compiled
fragment never reads or writes it (the source compiler has no closure
compilation). -/
structure LuaPrototype where
  code : List IRInstruction
  constants : List LuaConstant
  numberParameters : Nat
  isVararg : Bool
  maxStackSize : Int
deriving DecidableEq, Repr

/-- A fresh prototype: registers 0 and 1 are always valid, so the recorded
maximum stack size starts at 2. -/
def LuaPrototype.fresh : LuaPrototype :=
  LuaPrototype.mk [] [] 0 false 2

/-- A compiler scope frame (class Scope in src/compiler/lua/lua-scope.ts):
a function-boundary flag and the name-to-register record.  The record is an
association list in JS insertion order; updating an existing key keeps its
position, as JS objects do. -/
structure CompScope where
  isFunctionScope : Bool
  locals : List (String × Int)
deriving DecidableEq, Repr

/-- Record update locals[name] = v, keeping insertion order. -/
def setLocal (ls : List (String × Int)) (name : String) (v : Int) :
    List (String × Int) :=
  match ls with
  | [] => [(name, v)]
  | (k, w) :: rest =>
    if k = name then (k, v) :: rest else (k, w) :: setLocal rest name v

/-- Compiler state: the prototype being built, the next-free-register
counter, the active-variable counter and the scope stack.  The innermost
scope (this.currentScope) is the head of the list; the JS array pushes the
innermost scope at its end. -/
structure CompState where
  currentProto : LuaPrototype
  nextRegister : Int
  numVars : Int
  scopeStack : List CompScope
deriving DecidableEq, Repr

/-- The state a fresh Compiler starts from (its constructor). -/
def CompState.fresh : CompState :=
  CompState.mk LuaPrototype.fresh (-1) 0 []

/-- Compiler.allocateRegister: bump the next-free-register counter, raising
the prototype's recorded maximum stack size when exceeded; returns the
allocated register. -/
def allocateRegister (st : CompState) : Int × CompState :=
  let next := st.nextRegister + 1
  let proto :=
    if st.currentProto.maxStackSize < next then
      { st.currentProto with maxStackSize := next }
    else st.currentProto
  (next, { st with nextRegister := next, currentProto := proto })

/-- Compiler.freeRegister. -/
def freeRegister (st : CompState) : CompState :=
  { st with nextRegister := st.nextRegister - 1 }

/-- Compiler.registerVariable: allocate a register for a newly declared
local in the innermost scope (fatal when there is no scope or the name is
already declared there); returns the register. -/
def registerVariable (st : CompState) (name : String) : Res (Int × CompState) :=
  match st.scopeStack with
  | [] => .err "No scope to register variable in"
  | scope :: rest =>
    match List.lookup name scope.locals with
    | some _ =>
      .err ("Variable " ++ sq ++ name ++ sq ++ " already declared in this scope")
    | none =>
      let r := allocateRegister st
      let scope := { scope with locals := setLocal scope.locals name r.1 }
      .ok (r.1, { r.2 with numVars := r.2.numVars + 1, scopeStack := scope :: rest })

/-- Compiler.registerVariables. -/
def registerVariables (st : CompState) (names : List String) : Res CompState :=
  names.foldlM (fun acc n => do
    let r ← registerVariable acc n
    pure r.2) st

/-- Compiler.unregisterVariable: mark the local dead (its record entry is
set to -1, not removed), decrement the active-variable counter and free its
register. -/
def unregisterVariable (st : CompState) (name : String) : Res CompState :=
  match st.scopeStack with
  | [] => .err "No scope to unregister variable in"
  | scope :: rest =>
    match List.lookup name scope.locals with
    | none => .err ("Variable " ++ sq ++ name ++ sq ++ " not declared in this scope")
    | some _ =>
      if st.numVars = 0 then .err "No variables to unregister"
      else
        let scope := { scope with locals := setLocal scope.locals name (-1) }
        .ok (freeRegister { st with numVars := st.numVars - 1, scopeStack := scope :: rest })

/-- Compiler.unregisterVariables. -/
def unregisterVariables (st : CompState) (names : List String) : Res CompState :=
  names.foldlM (fun acc n => unregisterVariable acc n) st

/-- Compiler.pushScope. -/
def CompState.pushScope (st : CompState) (isFunctionScope : Bool) : CompState :=
  { st with scopeStack := CompScope.mk isFunctionScope [] :: st.scopeStack }

/-- Compiler.popScope: unregister every key of the innermost scope (in
insertion order, as Object.keys yields them), then pop it. -/
def CompState.popScope (st : CompState) : Res CompState :=
  match st.scopeStack with
  | [] => .err "No scope to pop"
  | scope :: _ => do
    let st ← unregisterVariables st (scope.locals.map (fun kv => kv.1))
    match st.scopeStack with
    | [] => .err "No scope to pop"
    | _ :: rest => .ok { st with scopeStack := rest }

/-- Compiler.emit: append an instruction to the current prototype. -/
def emit (st : CompState) (opcode : Opcodes) (operands : List IROperand) : CompState :=
  { st with currentProto :=
      { st.currentProto with
          code := st.currentProto.code ++ [IRInstruction.mk opcode operands] } }

/-- The scanning loop of Compiler.emitConstant: the index of the first pool
entry with the given type and value, if any. -/
def findConstantIdx (pool : List LuaConstant) (t : LuaConstantType)
    (v : LuaConstantValue) : Option Nat :=
  match pool with
  | [] => none
  | c :: rest =>
    if c.type = t && c.value = v then some 0
    else (findConstantIdx rest t v).map (fun i => i + 1)

/-- Compiler.emitConstant on a bare pool: linearly scan for an entry with
the same type and value and return its index; on a miss append a new entry.
Returns the index and the new pool. -/
def emitConstantPool (pool : List LuaConstant) (t : LuaConstantType)
    (v : LuaConstantValue) : Nat × List LuaConstant :=
  match findConstantIdx pool t v with
  | some i => (i, pool)
  | none => (pool.length, pool ++ [LuaConstant.mk t v])

/-- Compiler.emitConstant on the compiler state. -/
def emitConstant (st : CompState) (t : LuaConstantType) (v : LuaConstantValue) :
    Nat × CompState :=
  let r := emitConstantPool st.currentProto.constants t v
  (r.1, { st with currentProto := { st.currentProto with constants := r.2 } })

/-- Compiler.compileConstantNode: pool the literal's payload under the
matching tag and emit LOADK into the target register. -/
def compileConstantNode (node : Ast) (targetRegister : Int) (st : CompState) :
    Res CompState :=
  match node with
  | .numberLit v => do
    let r := emitConstant st .LUA_TNUMBER (.str v)
    .ok (emit r.2 .LOADK
      [IROperand.mk "Register" targetRegister, IROperand.mk "Constant" (r.1 : Int)])
  | .stringLit v => do
    let r := emitConstant st .LUA_TSTRING (.str v)
    .ok (emit r.2 .LOADK
      [IROperand.mk "Register" targetRegister, IROperand.mk "Constant" (r.1 : Int)])
  | _ => .err ("Unsupported constant node type: " ++ node.nodeType)

/-- The scope walk of Compiler.compileVariableNode: innermost outward, the
first scope whose record contains the name (a dead -1 entry included, as in
the source) wins. -/
def lookupLocal (stack : List CompScope) (name : String) : Option Int :=
  match stack with
  | [] => none
  | scope :: rest =>
    match List.lookup name scope.locals with
    | some r => some r
    | none => lookupLocal rest name

/-- Compiler.compileVariableNode: MOVE from a live local's register, or
GETGLOBAL through a pooled string constant for the name. -/
def compileVariableNode (name : String) (targetRegister : Int) (st : CompState) :
    CompState :=
  match lookupLocal st.scopeStack name with
  | some r =>
    emit st .MOVE [IROperand.mk "Register" targetRegister, IROperand.mk "Register" r]
  | none =>
    let r := emitConstant st .LUA_TSTRING (.str name)
    emit r.2 .GETGLOBAL
      [IROperand.mk "Register" targetRegister, IROperand.mk "Constant" (r.1 : Int)]

/-- Compiler.compileExpressionNode with an explicit target register: number
and string literals and variable references; everything else is fatal in
the source. -/
def compileExpressionNode (node : Ast) (targetRegister : Int) (st : CompState) :
    Res CompState :=
  match node with
  | .numberLit _ => compileConstantNode node targetRegister st
  | .stringLit _ => compileConstantNode node targetRegister st
  | .variableNode _ name => .ok (compileVariableNode name targetRegister st)
  | _ => .err ("Unsupported expression node type: " ++ node.nodeType)

/-- The initializer loop of Compiler.compileLocalAssignment: walk the
expression list with its index; an expression whose index has a paired
local (undefined and the empty string are both falsy in JS) is compiled
into that local's freshly registered register, an unpaired expression is
compiled into a temporary that is freed immediately afterwards. -/
def compileLocalLoop (locals : List String) :
    List Ast → Nat → CompState → Res CompState
  | [], _, st => .ok st
  | e :: rest, index, st =>
    let nm := locals.getD index ""
    if nm = "" then do
      let r := allocateRegister st
      let st ← compileExpressionNode e r.1 r.2
      compileLocalLoop locals rest (index+1) (freeRegister st)
    else do
      let r ← registerVariable st nm
      let st ← compileExpressionNode e r.1 r.2
      compileLocalLoop locals rest (index+1) st

/-- Compiler.compileLocalAssignment: with an initializer list, run the
pairing loop over the expressions; without one, register every local with
no emitted instruction. -/
def compileLocalAssignment (locals : List String) (expressions : Option Ast)
    (st : CompState) : Res CompState :=
  match expressions with
  | some (.exprList es) => compileLocalLoop locals es 0 st
  | some _ => .err "unreachable: expressions is always an ExpressionList node"
  | none => registerVariables st locals

/-- Compiler.compileStatementNode: local assignments (do-statements never
reach the compiler in the modelled fragment, every other kind is fatal in
the source). -/
def compileStatementNode (node : Ast) (st : CompState) : Res CompState :=
  match node with
  | .localAssignment locals expressions => compileLocalAssignment locals expressions st
  | _ => .err ("Unsupported statement node type: " ++ node.nodeType)

/-- The statement fold of Compiler.compileChunk. -/
def compileStmtList : List Ast → CompState → Res CompState
  | [], st => .ok st
  | stmt :: rest, st => do
    let st ← compileStatementNode stmt st
    compileStmtList rest st

/-- Compiler.compileChunk: push a scope, register the supplied variables,
compile each child statement, pop the scope. -/
def compileChunk (children : List Ast) (isFunctionScope : Bool)
    (vars : List String) (st : CompState) : Res CompState := do
  let st := st.pushScope isFunctionScope
  let st ← registerVariables st vars
  let st ← compileStmtList children st
  st.popScope

/-- Compiler.compile: compile the program chunk as a function scope, check
the scope stack emptied, return the prototype. -/
def compile (ast : Ast) : Res LuaPrototype :=
  match ast with
  | .program children => do
    let st ← compileChunk children true [] CompState.fresh
    if st.scopeStack.length = 0 then .ok st.currentProto
    else .err "Scope stack not empty"
  | _ => .err "compile expects a Program node"

/-- The full lex-parse-compile pipeline on a source string. -/
def luaCompile (s : String) : Res LuaPrototype := do
  let ast ← luaParse s
  compile ast

/-! Helper lemmas. -/

/-- Reading at or past the end of the source yields the NUL sentinel. -/
theorem charAt_of_le (code : List Char) (pos : Nat) (h : code.length ≤ pos) :
    charAt code pos = NUL := by
  simp [charAt, List.getD_eq_getElem?_getD, List.getElem?_eq_none h]

/-- Once the cursor of the quoted-string scanning loop is at or past the end
of the source, the loop consumes NUL sentinels forever: it exhausts any
fuel.  This is the JS truthiness slip in consumeSimpleString: the guard
this.curChar && this.curChar !== quote never fails at end of input because
the one-character string holding the NUL sentinel is truthy. -/
theorem simpleStringLoop_eof (code : List Char) (quote : Char) (hq : quote ≠ NUL) :
    ∀ (fuel pos : Nat) (acc : List Char), code.length ≤ pos →
    simpleStringLoop code quote fuel pos acc = .diverge := by
  intro fuel
  induction fuel with
  | zero => intro pos acc _; rfl
  | succ f ih =>
    intro pos acc h
    have hc : charAt code pos = NUL := charAt_of_le code pos h
    simp only [simpleStringLoop, hc]
    rw [if_neg (fun hh => hq hh.symm), if_neg (by decide)]
    exact ih (pos+1) (acc ++ [NUL]) (Nat.le_trans h (Nat.le_succ pos))

/-- A source consisting of one double quote reaches the string loop at end
of input, for any fuel. -/
theorem getNextToken_dquote (f : Nat) : getNextToken [dquote] f 0 = .diverge := by
  have key : getNextToken [dquote] f 0 =
      (consumeSimpleString [dquote] f 0 >>= fun r =>
        pure (some (Token.mk .STRING (String.mk r.1)), r.2)) := rfl
  have key2 : consumeSimpleString [dquote] f 0 =
      (simpleStringLoop [dquote] dquote f 1 [] >>= fun r => pure (r.1, r.2 + 1)) := rfl
  rw [key, key2, simpleStringLoop_eof [dquote] dquote (by decide) f 1 [] (by decide)]
  rfl

/-- The lex loop on the one-double-quote source diverges at every fuel. -/
theorem lexLoop_dquote : ∀ fuel, lexLoop [dquote] fuel 0 [] = .diverge
  | 0 => rfl
  | f+1 => by
    have key : lexLoop [dquote] (f+1) 0 [] =
        (match getNextToken [dquote] f 0 with
         | .ok (some t, p) => lexLoop [dquote] f p ([] ++ [t])
         | .ok (none, p) => lexLoop [dquote] f p []
         | .err e => .err e
         | .diverge => .diverge) := rfl
    rw [key, getNextToken_dquote f]

/-! Claim C1. -/

/-- C1: the spec claims lexing scans a long-bracketed string until a closing
bracket pair with exactly the opening equals-count, treating any closing
candidate with a different count as content, so that lexing the input
with opening depth 2 and content x]=] succeeds with one String token.  The
code instead skips the character that follows a failed closing candidate,
which here is the opening bracket of the true closing delimiter, so the
scan runs to end of input and lexing throws the unexpected-EOF error; the
input with content x and matching depth 2 shows the non-overlapping case
succeeding. -/
theorem C1_long_bracket_depth : 
    lexStr "[==[x]=]==]" =
      .err ("Unexpected character " ++ sq ++ "<EOF>" ++ sq ++
        ", expected " ++ sq ++ "]==]" ++ sq) ∧
    lexStr "[==[x]==]" = .ok [Token.mk .STRING "x"] := by
  exact ⟨by decide, by decide⟩

/-! Claim C2. -/

/-- C2: the spec claims every call to lex terminates (returning tokens or
throwing synchronously), in particular on a source holding an unterminated
quoted string.  The code does not terminate there: the string-scanning loop
of consumeSimpleString never exits at end of input (the NUL sentinel is a
truthy one-character JS string), so on the one-character source consisting
of a double quote the lex loop exhausts every fuel, and the budgeted runs
on that source and on an unterminated string with content likewise
diverge. -/
theorem C2_lex_unterminated_string_diverges :
    (∀ fuel : Nat, lexLoop [dquote] fuel 0 [] = .diverge) ∧
    lex [dquote] = .diverge ∧
    lex [dquote, 'a', 'b', 'c'] = .diverge := by
  refine ⟨lexLoop_dquote, lexLoop_dquote (lexFuelBound [dquote]), by decide⟩

/-! Claim C6. -/

/-- C6: numeric literals are canonicalised at lexing by numerically parsing
the literal and restringifying it: the hex literal 0x10, the decimal
literal 16 and the exponent form 1.6e1 all lex to a Number token with the
same payload 16. -/
theorem C6_number_canonicalization :
    lexStr "0x10" = .ok [Token.mk .NUMBER "16"] ∧
    lexStr "16" = .ok [Token.mk .NUMBER "16"] ∧
    lexStr "1.6e1" = .ok [Token.mk .NUMBER "16"] := by
  exact ⟨by decide, by decide, by decide⟩

/-! Claim C8. -/

/-- In the string-scanning loop, a backslash followed by a character that is
neither a mapped escape letter nor a decimal digit throws the
invalid-escape error naming that character. -/
theorem simpleStringLoop_invalid_escape (code : List Char) (pos fuel : Nat)
    (acc : List Char) (c : Char)
    (hb : charAt code pos = bslash) (hc : charAt code (pos+1) = c)
    (h1 : List.lookup c TOKENIZER_ESCAPED_CHARACTER_CONVERSIONS = none)
    (h2 : isNumber c = false) :
    simpleStringLoop code dquote (fuel+1) pos acc = .err (invalidEscapeMsg c) := by
  simp only [simpleStringLoop, hb, hc, h1, h2]
  simp
  decide

/-- C8: escape sequences in quoted strings are decoded at lexing: a
backslash followed by one to three decimal digits yields the character with
that character code (the 1-digit escape 9 decodes to a tab and the 2-digit
escape 97 to the letter a), and a backslash followed by a character that is
neither a recognized escape letter nor a digit fails with an error naming
the invalid escape sequence, both in general (for any such character, the
scanning loop throws exactly that error) and end to end on the letter g. -/
theorem C8_escape_decoding :
    lex [dquote, 'a', bslash, '9', 'b', dquote] =
      .ok [Token.mk .STRING (String.mk ['a', '\t', 'b'])] ∧
    lex [dquote, 'a', bslash, '9', '7', 'b', dquote] = .ok [Token.mk .STRING "aab"] ∧
    (∀ (code : List Char) (pos fuel : Nat) (acc : List Char) (c : Char),
      charAt code pos = bslash → charAt code (pos+1) = c →
      List.lookup c TOKENIZER_ESCAPED_CHARACTER_CONVERSIONS = none →
      isNumber c = false →
      simpleStringLoop code dquote (fuel+1) pos acc = .err (invalidEscapeMsg c)) ∧
    lex [dquote, 'a', bslash, 'g', 'b', dquote] = .err (invalidEscapeMsg 'g') := by
  refine ⟨by decide, by decide, ?_, by decide⟩
  intro code pos fuel acc c hb hc h1 h2
  exact simpleStringLoop_invalid_escape code pos fuel acc c hb hc h1 h2

/-- Closed instance of the universal part of C8, at the letter g. -/
theorem C8_escape_decoding_witness :
    simpleStringLoop [dquote, bslash, 'g', dquote] dquote 8 1 [] =
      .err (invalidEscapeMsg 'g') :=
  C8_escape_decoding.2.2.1 [dquote, bslash, 'g', dquote] 1 7 [] 'g'
    (by decide) (by decide) (by decide) (by decide)

/-! Claim C10. -/

/-- C10: the carriage return is neither whitespace to the lexer (whose
whitespace set is exactly space, tab and newline) nor a valid punctuation
character nor the start of any operator, so a bare carriage return outside
a string or comment - as in a CRLF line ending between statements - makes
lexing throw the invalid-character error naming it. -/
theorem C10_carriage_return_invalid :
    (∀ c : Char, isWhitespace c = true ↔ (c = ' ' ∨ c = '\t' ∨ c = '\n')) ∧
    isWhitespace '\r' = false ∧
    VALID_CHARACTERS.contains '\r' = false ∧
    consumeOperatorIfPossible ['\r'] 0 = none ∧
    lexStr "a = 1\r\nb = 2" = .err ("Invalid character: " ++ String.mk ['\r']) := by
  refine ⟨?_, by decide, by decide, by decide, by decide⟩
  intro c
  simp [isWhitespace, or_assoc]

/-! Claim C4. -/

/-- The scope walk finds the name in the first declaring scope: if every
scope inside it misses the name, the result is Upvalue exactly when the
flag is set or a function-boundary scope was crossed on the way. -/
theorem getVariableTypeAux_found (name : String) :
    ∀ (pre : List PScope) (isUp : Bool) (s : PScope) (post : List PScope),
    (∀ t ∈ pre, t.hasVariable name = false) → s.hasVariable name = true →
    getVariableTypeAux name (pre ++ s :: post) isUp =
      (if (isUp || pre.any fun t => t.isFunctionScope) then "Upvalue" else "Local") := by
  intro pre
  induction pre with
  | nil =>
    intro isUp s post _ hs
    simp [getVariableTypeAux, hs]
  | cons t ts ih =>
    intro isUp s post hpre hs
    have ht : t.hasVariable name = false := hpre t (by simp)
    simp only [List.cons_append, getVariableTypeAux, ht, Bool.false_eq_true, if_false,
      List.append_eq]
    rw [ih (isUp || t.isFunctionScope) s post (fun u hu => hpre u (by simp [hu])) hs]
    simp [Bool.or_assoc]

/-- The scope walk misses everywhere: the result is Global. -/
theorem getVariableTypeAux_global (name : String) :
    ∀ (stack : List PScope) (isUp : Bool),
    (∀ t ∈ stack, t.hasVariable name = false) →
    getVariableTypeAux name stack isUp = "Global" := by
  intro stack
  induction stack with
  | nil => intro isUp _; rfl
  | cons t ts ih =>
    intro isUp h
    have ht : t.hasVariable name = false := h t (by simp)
    simp only [getVariableTypeAux, ht]
    simp only [Bool.false_eq_true, if_false]
    exact ih _ (fun u hu => h u (by simp [hu]))

/-- C4: identifier classification walks the scope stack from the innermost
scope outward (the head of the embedded stack): the first declaring scope
yields Local when no function-boundary scope lies strictly inside it and
Upvalue otherwise, and a name no open scope declares yields Global; in
particular the body occurrence of a in local a = 1; function f() return a
end parses to an UPVALUE variable node, and a bare return a parses to a
GLOBAL one. -/
theorem C4_scope_resolution :
    (∀ (name : String) (pre : List PScope) (s : PScope) (post : List PScope),
      (∀ t ∈ pre, t.hasVariable name = false) → s.hasVariable name = true →
      getVariableType name (pre ++ s :: post) =
        (if (pre.any fun t => t.isFunctionScope) then "Upvalue" else "Local")) ∧
    (∀ (name : String) (stack : List PScope),
      (∀ t ∈ stack, t.hasVariable name = false) →
      getVariableType name stack = "Global") ∧
    luaParse "local a = 1; function f() return a end" = .ok (Ast.program
      [Ast.localAssignment ["a"] (some (Ast.exprList [Ast.numberLit "1"])),
       Ast.functionDecl (Ast.variableNode "GLOBAL" "f") [] []
         (Ast.chunk [Ast.returnStmt (Ast.exprList [Ast.variableNode "UPVALUE" "a"])])
         false]) ∧
    luaParse "return a" = .ok (Ast.program
      [Ast.returnStmt (Ast.exprList [Ast.variableNode "GLOBAL" "a"])]) := by
  refine ⟨?_, ?_, by rfl, by rfl⟩
  · intro name pre s post hpre hs
    simpa using getVariableTypeAux_found name pre false s post hpre hs
  · intro name stack h
    exact getVariableTypeAux_global name stack false h

/-- Closed instance of the universal parts of C4: the name is found outside
one crossed function boundary (Upvalue) and missed everywhere (Global). -/
theorem C4_scope_resolution_witness :
    getVariableType "a" [PScope.mk true [], PScope.mk false ["a"]] = "Upvalue" ∧
    getVariableType "a" [PScope.mk true ["b"]] = "Global" := by
  constructor
  · have h := C4_scope_resolution.1 "a" [PScope.mk true []] (PScope.mk false ["a"]) []
      (by decide) (by decide)
    simpa using h
  · exact C4_scope_resolution.2.1 "a" [PScope.mk true ["b"]] (by decide)

/-! Claim C7. -/

/-- C7: the spec claims the precedence table makes exponentiation and
concatenation right-associative, unary operators bind tighter than every
binary operator except exponentiation, and every other binary operator
left-associative.  The table and the first two behaviours are as claimed
(2 ^ 3 ^ 2 groups right, - a ^ b is -(a ^ b), - a * b is (-a) * b,
1 .. 2 .. 3 groups right), but equal-precedence operators also group to the
right: parseBinary stops only when the next left precedence is strictly
below the minimum and recurses with the right precedence, so 1 - 2 - 3
parses as 1 - (2 - 3) instead of the left-associative (1 - 2) - 3. -/
theorem C7_operator_precedence :
    luaParse "return 2 ^ 3 ^ 2" = .ok (Ast.program [Ast.returnStmt (Ast.exprList
      [Ast.binaryOp "^" (Ast.numberLit "2")
        (Ast.binaryOp "^" (Ast.numberLit "3") (Ast.numberLit "2"))])]) ∧
    luaParse "return - a ^ b" = .ok (Ast.program [Ast.returnStmt (Ast.exprList
      [Ast.unaryOp "-" (Ast.binaryOp "^" (Ast.variableNode "GLOBAL" "a")
        (Ast.variableNode "GLOBAL" "b"))])]) ∧
    luaParse "return - a * b" = .ok (Ast.program [Ast.returnStmt (Ast.exprList
      [Ast.binaryOp "*" (Ast.unaryOp "-" (Ast.variableNode "GLOBAL" "a"))
        (Ast.variableNode "GLOBAL" "b")])]) ∧
    luaParse "return 1 .. 2 .. 3" = .ok (Ast.program [Ast.returnStmt (Ast.exprList
      [Ast.binaryOp ".." (Ast.numberLit "1")
        (Ast.binaryOp ".." (Ast.numberLit "2") (Ast.numberLit "3"))])]) ∧
    luaParse "return 1 - 2 - 3" = .ok (Ast.program [Ast.returnStmt (Ast.exprList
      [Ast.binaryOp "-" (Ast.numberLit "1")
        (Ast.binaryOp "-" (Ast.numberLit "2") (Ast.numberLit "3"))])]) ∧
    List.lookup "^" OPERATOR_PRECEDENCE = some (10, 9) ∧
    List.lookup ".." OPERATOR_PRECEDENCE = some (5, 4) ∧
    UNARY_PRECEDENCE = 8 ∧
    (BINARY_OPERATORS.all fun op =>
      op = "^" || op = ".." ||
        (match List.lookup op OPERATOR_PRECEDENCE with
         | some p => p.1 == p.2
         | none => false)) = true := by
  exact ⟨by rfl, by rfl, by rfl, by rfl, by rfl, by decide, by decide, by decide, by decide⟩

/-! Claim C9. -/

/-- C9: in a local declaration the parser registers the declared names only
after the initializer list is parsed, so an identifier in its own
initializer never resolves to the local being declared: in local a = a the
right-hand a is GLOBAL; with an earlier declaration in the same scope it is
LOCAL, and with the declaration outside the enclosing function it is
UPVALUE. -/
theorem C9_local_initializer_scope :
    luaParse "local a = a" = .ok (Ast.program
      [Ast.localAssignment ["a"] (some (Ast.exprList [Ast.variableNode "GLOBAL" "a"]))]) ∧
    luaParse "local a = 1 local a = a" = .ok (Ast.program
      [Ast.localAssignment ["a"] (some (Ast.exprList [Ast.numberLit "1"])),
       Ast.localAssignment ["a"] (some (Ast.exprList [Ast.variableNode "LOCAL" "a"]))]) ∧
    luaParse "local a = 1 function f() local a = a end" = .ok (Ast.program
      [Ast.localAssignment ["a"] (some (Ast.exprList [Ast.numberLit "1"])),
       Ast.functionDecl (Ast.variableNode "GLOBAL" "f") [] []
         (Ast.chunk [Ast.localAssignment ["a"]
           (some (Ast.exprList [Ast.variableNode "UPVALUE" "a"]))]) false]) := by
  exact ⟨by rfl, by rfl, by rfl⟩

/-! Claim C3. -/

/-- C3: the spec claims every declared local with no paired initializer is
still allocated a register, so that after local a, b = 1 both a and b
occupy registers with a single LOADK emitted.  The code pairs positionally
by iterating over the initializer list only: compiling that statement from
a fresh function scope registers a at register 0 with one LOADK into it,
while b is never registered at all (the scope record has no entry for it
and the register counter rose only once); only a declaration with no
initializer list at all, local a, b, registers both names. -/
theorem C3_local_declaration_pairing :
    luaParse "local a, b = 1" = .ok (Ast.program
      [Ast.localAssignment ["a", "b"] (some (Ast.exprList [Ast.numberLit "1"]))]) ∧
    compileStatementNode
        (Ast.localAssignment ["a", "b"] (some (Ast.exprList [Ast.numberLit "1"])))
        (CompState.mk LuaPrototype.fresh (-1) 0 [CompScope.mk true []]) =
      .ok (CompState.mk
        (LuaPrototype.mk
          [IRInstruction.mk .LOADK
            [IROperand.mk "Register" 0, IROperand.mk "Constant" 0]]
          [LuaConstant.mk .LUA_TNUMBER (.str "1")] 0 false 2)
        0 1 [CompScope.mk true [("a", 0)]]) ∧
    List.lookup "b" [("a", (0 : Int))] = none ∧
    compileStatementNode (Ast.localAssignment ["a", "b"] none)
        (CompState.mk LuaPrototype.fresh (-1) 0 [CompScope.mk true []]) =
      .ok (CompState.mk LuaPrototype.fresh 1 2
        [CompScope.mk true [("a", 0), ("b", 1)]]) := by
  exact ⟨by rfl, by decide, by decide, by decide⟩

/-! Claim C5. -/

/-- A pool entry matching the scanned type and value is that constant. -/
theorem constant_match_eq (c : LuaConstant) (t : LuaConstantType)
    (v : LuaConstantValue) (h : (c.type = t && c.value = v) = true) :
    c = LuaConstant.mk t v := by
  cases c with
  | mk ct cv =>
    simp only [Bool.and_eq_true, decide_eq_true_eq] at h
    simp [h.1, h.2]

/-- The constant scan fails exactly on pools not containing the constant. -/
theorem findConstantIdx_of_not_mem (t : LuaConstantType) (v : LuaConstantValue) :
    ∀ pool : List LuaConstant, LuaConstant.mk t v ∉ pool →
    findConstantIdx pool t v = none := by
  intro pool
  induction pool with
  | nil => intro _; rfl
  | cons c rest ih =>
    intro h
    have hc : (c.type = t && c.value = v) = false := by
      by_contra hcc
      exact h (by
        rw [constant_match_eq c t v (by simpa using hcc)]
        exact List.mem_cons_self _ _)
    simp only [findConstantIdx, hc, Bool.false_eq_true, if_false]
    rw [ih (fun hm => h (List.mem_cons_of_mem c hm))]
    rfl

/-- On a pool containing the constant, the scan returns an index holding
exactly that constant. -/
theorem findConstantIdx_of_mem (t : LuaConstantType) (v : LuaConstantValue) :
    ∀ pool : List LuaConstant, LuaConstant.mk t v ∈ pool →
    ∃ i, findConstantIdx pool t v = some i ∧
      pool.get? i = some (LuaConstant.mk t v) := by
  intro pool
  induction pool with
  | nil => intro h; exact absurd h (List.not_mem_nil _)
  | cons c rest ih =>
    intro h
    by_cases hc : (c.type = t && c.value = v) = true
    · refine ⟨0, ?_, ?_⟩
      · simp [findConstantIdx, hc]
      · rw [constant_match_eq c t v hc]
        rfl
    · have hcn : c ≠ LuaConstant.mk t v := by
        intro he
        apply hc
        rw [he]
        simp
      have hm : LuaConstant.mk t v ∈ rest := by
        cases List.mem_cons.1 h with
        | inl he => exact absurd he.symm hcn
        | inr hm => exact hm
      obtain ⟨i, hfind, hget⟩ := ih hm
      refine ⟨i + 1, ?_, by simpa using hget⟩
      simp [findConstantIdx, hc, hfind]

/-- Emitting a sequence of literals into a pool, in order. -/
def emitConstantsFold (lits : List (LuaConstantType × LuaConstantValue))
    (pool : List LuaConstant) : List LuaConstant :=
  lits.foldl (fun acc p => (emitConstantPool acc p.1 p.2).2) pool

/-- One emission step preserves distinctness of the pool and adds exactly
the emitted constant to its set of entries. -/
theorem emitConstantPool_step (pool : List LuaConstant) (t : LuaConstantType)
    (v : LuaConstantValue) (hnd : pool.Nodup) :
    (emitConstantPool pool t v).2.Nodup ∧
    (emitConstantPool pool t v).2.toFinset =
      insert (LuaConstant.mk t v) pool.toFinset := by
  by_cases hm : LuaConstant.mk t v ∈ pool
  · obtain ⟨i, hfind, _⟩ := findConstantIdx_of_mem t v pool hm
    simp only [emitConstantPool, hfind]
    exact ⟨hnd, (Finset.insert_eq_self.2 (List.mem_toFinset.2 hm)).symm⟩
  · simp only [emitConstantPool, findConstantIdx_of_not_mem t v pool hm]
    constructor
    · rw [List.nodup_append]
      exact ⟨hnd, List.nodup_singleton _,
        fun {a} ha hb => hm ((List.mem_singleton.1 hb) ▸ ha)⟩
    · rw [List.toFinset_append, List.toFinset_cons, List.toFinset_nil,
        Finset.insert_eq, Finset.union_comm]
      simp [Finset.insert_eq]

/-- Folding a literal sequence into a distinct pool keeps it distinct and
its entry set is the initial set united with the emitted constants. -/
theorem emitConstantsFold_invariant :
    ∀ (lits : List (LuaConstantType × LuaConstantValue)) (pool : List LuaConstant),
    pool.Nodup →
    (emitConstantsFold lits pool).Nodup ∧
    (emitConstantsFold lits pool).toFinset =
      pool.toFinset ∪ (lits.map fun p => LuaConstant.mk p.1 p.2).toFinset := by
  intro lits
  induction lits with
  | nil => intro pool h; exact ⟨h, by simp [emitConstantsFold]⟩
  | cons p ps ih =>
    intro pool h
    have hstep := emitConstantPool_step pool p.1 p.2 h
    have hrec := ih (emitConstantPool pool p.1 p.2).2 hstep.1
    refine ⟨hrec.1, ?_⟩
    have : emitConstantsFold (p :: ps) pool =
        emitConstantsFold ps (emitConstantPool pool p.1 p.2).2 := rfl
    rw [this, hrec.2, hstep.2]
    simp [Finset.insert_union, Finset.union_insert]

/-- C5: constant pooling is idempotent.  Emitting a literal whose tag and
value match an existing pool entry returns an index holding exactly that
entry without changing the pool; only a miss appends a new entry at the
end; consequently the pool built from any emission sequence has exactly one
entry per distinct (tag, value) pair; and compiling
local a = 1; local b = 1 yields a single number constant 1 referenced by
two LOADK instructions. -/
theorem C5_constant_pooling :
    (∀ (pool : List LuaConstant) (t : LuaConstantType) (v : LuaConstantValue),
      LuaConstant.mk t v ∈ pool →
      (emitConstantPool pool t v).2 = pool ∧
      pool.get? (emitConstantPool pool t v).1 = some (LuaConstant.mk t v)) ∧
    (∀ (pool : List LuaConstant) (t : LuaConstantType) (v : LuaConstantValue),
      LuaConstant.mk t v ∉ pool →
      emitConstantPool pool t v = (pool.length, pool ++ [LuaConstant.mk t v])) ∧
    (∀ lits : List (LuaConstantType × LuaConstantValue),
      (emitConstantsFold lits []).length =
        (lits.map fun p => LuaConstant.mk p.1 p.2).toFinset.card) ∧
    luaCompile "local a = 1; local b = 1" = .ok (LuaPrototype.mk
      [IRInstruction.mk .LOADK [IROperand.mk "Register" 0, IROperand.mk "Constant" 0],
       IRInstruction.mk .LOADK [IROperand.mk "Register" 1, IROperand.mk "Constant" 0]]
      [LuaConstant.mk .LUA_TNUMBER (.str "1")] 0 false 2) := by
  refine ⟨?_, ?_, ?_, by rfl⟩
  · intro pool t v hm
    obtain ⟨i, hfind, hget⟩ := findConstantIdx_of_mem t v pool hm
    simp only [emitConstantPool, hfind]
    exact ⟨trivial, hget⟩
  · intro pool t v hm
    simp only [emitConstantPool, findConstantIdx_of_not_mem t v pool hm]
  · intro lits
    have h := emitConstantsFold_invariant lits [] List.nodup_nil
    rw [← List.toFinset_card_of_nodup h.1, h.2]
    simp

/-- Closed instance of the universal parts of C5: a hit leaves the
two-entry pool unchanged and returns the index of the matching entry; a
miss appends. -/
theorem C5_constant_pooling_witness :
    (emitConstantPool
        [LuaConstant.mk .LUA_TSTRING (.str "x"), LuaConstant.mk .LUA_TNUMBER (.str "1")]
        .LUA_TNUMBER (.str "1")).2 =
      [LuaConstant.mk .LUA_TSTRING (.str "x"), LuaConstant.mk .LUA_TNUMBER (.str "1")] ∧
    emitConstantPool [LuaConstant.mk .LUA_TSTRING (.str "x")] .LUA_TNUMBER (.str "1") =
      (1, [LuaConstant.mk .LUA_TSTRING (.str "x"), LuaConstant.mk .LUA_TNUMBER (.str "1")]) := by
  constructor
  · exact (C5_constant_pooling.1
      [LuaConstant.mk .LUA_TSTRING (.str "x"), LuaConstant.mk .LUA_TNUMBER (.str "1")]
      .LUA_TNUMBER (.str "1") (by decide)).1
  · exact C5_constant_pooling.2.1 [LuaConstant.mk .LUA_TSTRING (.str "x")]
      .LUA_TNUMBER (.str "1") (by decide)

end LuaJs
